import Mathlib

/-!
Shallow embedding of the log-triage assistant (app.py, elk_service.py,
vegasgpt_service.py, synapt_service.py).  Python dictionaries are modelled
as association lists keyed by `String` (first occurrence wins, as in a
Python dict, whose keys are unique); Python `None` returns and raised
exceptions that a caller observes are modelled with `Option` and explicit
outcome types; the external HTTP / database round trips are modelled as
oracle parameters so that each code path of the source is represented by
one constructor of the oracle's outcome type.
-/

/-- Python `str.find(c)`: index of the first occurrence of `c`, `-1` if absent
(`vegasgpt_service.py` line 122). -/
def pyFind (s : String) (c : Char) : Int :=
  match s.data.findIdx? (fun x => x = c) with
  | some i => (i : Int)
  | none => -1

/-- Python `str.rfind(c)`: index of the last occurrence of `c`, `-1` if absent
(`vegasgpt_service.py` line 123). -/
def pyRfind (s : String) (c : Char) : Int :=
  match s.data.reverse.findIdx? (fun x => x = c) with
  | some i => ((s.data.length - 1 - i : Nat) : Int)
  | none => -1

/-- Python slice `s[a:b]` for the in-range, non-negative indices produced by
`find`/`rfind` in `vegasgpt_service.py` line 126. -/
def pySlice (s : String) (a b : Int) : String :=
  String.mk ((s.data.drop a.toNat).take (b.toNat - a.toNat))

/-- Does the character list `needle` occur at the head of `hay`? -/
def matchesAt : List Char → List Char → Bool
  | [], _ => true
  | _ :: _, [] => false
  | a :: as, b :: bs => a = b && matchesAt as bs

/-- Does `needle` occur as a contiguous sublist of `hay`? -/
def containsSub (hay needle : List Char) : Bool :=
  match hay with
  | [] => matchesAt needle []
  | _ :: t => matchesAt needle hay || containsSub t needle

/-- Python `needle in hay` on strings. -/
def pyIn (needle hay : String) : Bool :=
  containsSub hay.data needle.data

/-- Python `str.lower()` (ASCII fragment; every string the code matches on is
ASCII). -/
def lowerStr (s : String) : String :=
  String.mk (s.data.map Char.toLower)

/-- The whitespace characters removed by Python `str.strip()` (ASCII fragment). -/
def isPySpace (c : Char) : Bool :=
  c = ' ' || c = '\t' || c = '\n' || c = '\r' || c = '\x0b' || c = '\x0c'

/-- Python `str.strip()` on the character list. -/
def stripL (l : List Char) : List Char :=
  ((l.dropWhile isPySpace).reverse.dropWhile isPySpace).reverse

/-- Python `str.strip()`. -/
def pyStrip (s : String) : String :=
  String.mk (stripL s.data)

/-- Core of Python `str.split(c)`: split a character list at every occurrence
of `c`, keeping empty segments (so `"".split(c) = [""]`). -/
def splitCharAux (c : Char) : List Char → List (List Char)
  | [] => [[]]
  | x :: xs =>
    if x = c then [] :: splitCharAux c xs
    else
      match splitCharAux c xs with
      | [] => [[x]]
      | h :: t => (x :: h) :: t

/-- Python `s.split(c)` for a one-character separator. -/
def pySplit (s : String) (c : Char) : List String :=
  (splitCharAux c s.data).map String.mk

/-- Python `s.startswith(c)` for a one-character prefix
(`synapt_service.py` line 139). -/
def pyStartsWith (s : String) (c : Char) : Bool :=
  match s.data with
  | [] => false
  | x :: _ => x = c

/-- Python `dict[key]` / `dict.get(key)` on the association-list model:
the value at the first occurrence of the key. -/
def pyLookup {α : Type} : List (String × α) → String → Option α
  | [], _ => none
  | (k', v) :: t, k => if k' = k then some v else pyLookup t k

/-- Python `dict[key] = value`: replace the value in place when the key is
present, append the pair otherwise (dict insertion order). -/
def pySet {α : Type} : List (String × α) → String → α → List (String × α)
  | [], k, v => [(k, v)]
  | (k', v') :: t, k, v =>
    if k' = k then (k, v) :: t else (k', v') :: pySet t k v

/-- Python `dict.get(key, default)` for string-valued source documents. -/
def sget (src : List (String × String)) (k : String) (d : String) : String :=
  match pyLookup src k with
  | some v => v
  | none => d

/-! ## ELK search client (`elk_service.py`) -/

/-- One normalized log record as built by `ELKService.retrieve_logs`
(lines 218-246): every synonym field resolved, optional passthroughs kept. -/
structure LogEntry where
  timestamp : String
  level : String
  message : String
  service : String
  transaction_id : String
  host : Option String
  error_details : Option String
deriving DecidableEq, Repr

/-- Field normalization of one hit's `_source` document
(`elk_service.py` lines 219-244), with the `dict.get` fallback chains. -/
def normalizeHit (source : List (String × String)) : LogEntry :=
  { timestamp := sget source "timestamp" (sget source "@timestamp" (sget source "time" ""))
  , level := sget source "level" (sget source "log_level" (sget source "severity" ""))
  , message := sget source "message" (sget source "msg" (sget source "log_message" ""))
  , service := sget source "service" (sget source "service_name" (sget source "application" ""))
  , transaction_id := sget source "transaction_id" (sget source "txid" (sget source "request_id" ""))
  , host := pyLookup source "host"
  , error_details := pyLookup source "error" }

/-- Outcome of the one `requests.post` round trip in `retrieve_logs`:
a transport exception, or an HTTP response carrying a status code and the
list of hit `_source` documents. -/
inductive ElkOutcome where
  | exception (msg : String)
  | response (status : Nat) (hits : List (List (String × String)))
deriving DecidableEq

/-- `ELKService.retrieve_logs` (lines 98-267): `none` models the Python
`None` returns (not configured, non-200 status, transport or other
exception); a 200 response yields the normalized log entries, an empty
hit list yielding the empty list (line 204-206). -/
def retrieve_logs (configured : Bool) (o : ElkOutcome) : Option (List LogEntry) :=
  if ¬ configured then none
  else
    match o with
    | ElkOutcome.exception _ => none
    | ElkOutcome.response status hits =>
      if status ≠ 200 then none
      else if hits = [] then some []
      else some (hits.map normalizeHit)

/-! ## Form-submission handler (`app.py` lines 66-88) -/

/-- The form fields read by the submission handler.  Dates are modelled as
day numbers and times as seconds within the day; `datetime.combine`
becomes the pair (date, time), ordered chronologically
(lexicographically). -/
structure FormInput where
  work_order : String
  task_name : String
  start_date : Nat
  start_time : Nat
  end_date : Nat
  end_time : Nat
deriving DecidableEq, Repr

/-- Chronological strict order on combined (date, time) values, i.e. on
what `datetime.combine` produces. -/
def combinedBefore (a b : Nat × Nat) : Bool :=
  a.1 < b.1 || (a.1 = b.1 && a.2 < b.2)

/-- What the submission handler does before any backend call: either it
stops with a validation error, or it reaches the search stage (the
`elk_service.retrieve_logs` call at line 88) with the combined
datetimes. -/
inductive SubmitOutcome where
  | validationError (msg : String)
  | searchInvoked (work_order task_name : String) (start_dt end_dt : Nat × Nat)
deriving DecidableEq, Repr

/-- The validation and dispatch logic of the form-submission handler
(`app.py` lines 66-88).  Note the source compares the bare time-of-day
values (`end_time <= start_time`, line 70), not the combined datetimes it
builds at lines 82-83 for the query. -/
def handleSubmit (f : FormInput) : SubmitOutcome :=
  if f.work_order = "" ∨ f.task_name = "" then
    SubmitOutcome.validationError "Work Order and Task Name are required fields"
  else if f.end_time ≤ f.start_time then
    SubmitOutcome.validationError "End time must be after start time"
  else
    SubmitOutcome.searchInvoked f.work_order f.task_name
      (f.start_date, f.start_time) (f.end_date, f.end_time)

/-! ## Analysis client (`vegasgpt_service.py`) -/

/-- JSON values, for the object decoded from the backend's free-text
response. -/
inductive JVal where
  | jnull
  | jbool (b : Bool)
  | jnum (q : ℚ)
  | jstr (s : String)
  | jarr (elems : List JVal)
  | jobj (fields : List (String × JVal))

/-- A decoded JSON object: the association list of its fields. -/
abbrev JObj := List (String × JVal)

/-- The line test of the heuristic fallback scanner
(`vegasgpt_service.py` lines 143 and 161):
`"ERROR" in line or "Exception" in line or "error" in line.lower()`. -/
def errorLine (line : String) : Bool :=
  pyIn "ERROR" line || pyIn "Exception" line || pyIn "error" (lowerStr line)

/-- The DetectedError dict the fallback scanner appends for one matching
line (lines 144-149 and 162-167); `now` is `datetime.now().isoformat()`. -/
def mkFallbackError (now line : String) : JObj :=
  [("message", JVal.jstr (pyStrip line)),
   ("root_cause", JVal.jstr "Unknown - parsed from unstructured response"),
   ("severity", JVal.jstr "Unknown"),
   ("timestamp", JVal.jstr now)]

/-- The fallback scanner's loop over the lines of the raw response
(lines 142-149 and 160-167). -/
def scanErrors (now : String) : List String → List JObj
  | [] => []
  | line :: rest =>
    if errorLine line then mkFallbackError now line :: scanErrors now rest
    else scanErrors now rest

/-- Structure validation of a successfully decoded analysis object
(lines 131-136): replace `errors` by `[]` unless it is present and a list,
backfill `summary` when absent. -/
def validateAnalysis (a : JObj) : JObj :=
  let a1 :=
    match pyLookup a "errors" with
    | some (JVal.jarr _) => a
    | _ => pySet a "errors" (JVal.jarr [])
  match pyLookup a1 "summary" with
  | some _ => a1
  | none => pySet a1 "summary" (JVal.jstr "Analysis completed without summary.")

/-- The fallback analysis dict built when no JSON structure is found
(lines 151-154) or when the decode raises (lines 169-172); the two
branches differ only in the summary string. -/
def fallbackAnalysis (now raw summary : String) : JObj :=
  [("errors", JVal.jarr ((scanErrors now (pySplit raw '\n')).map JVal.jobj)),
   ("summary", JVal.jstr summary)]

/-- The response-parsing logic of `analyze_logs` (lines 119-172).
`decode` is the oracle for Python `json.loads`: `none` models a
`json.JSONDecodeError`; a string starting with a brace that decodes
successfully is an object, given as its field list.  `now` is the clock
value read by the fallback scanner. -/
def parseAnalysis (decode : String → Option JObj) (now raw : String) : JObj :=
  let json_start := pyFind raw '\x7b'
  let json_end := pyRfind raw '\x7d' + 1
  if 0 ≤ json_start ∧ json_start < json_end then
    match decode (pySlice raw json_start json_end) with
    | some a => validateAnalysis a
    | none =>
      fallbackAnalysis now raw "Failed to parse JSON response, extracted errors from raw text."
  else
    fallbackAnalysis now raw "Parsed unstructured response for errors."

/-- Outcome of the one `requests.post` round trip in `analyze_logs`
(line 106): a raised exception (caught by the outer handler, lines
181-186), or a response with a status code and the `ai_response` text
extracted at line 116. -/
inductive PostOutcome where
  | exn (msg : String)
  | resp (status : Nat) (ai_response : String)

/-- The result returned for an empty input log list
(`vegasgpt_service.py` lines 29-34). -/
def noLogsResult : JObj :=
  [("errors", JVal.jarr []), ("summary", JVal.jstr "No logs available to analyze.")]

/-- `VegasGPTService.analyze_logs` (lines 22-186), paired with the number
of network calls issued to the generative backend.  The prompt assembly
(lines 36-105) only shapes the request payload, which the `post` oracle
abstracts; no claim depends on it.  The success path attaches the raw
response under `_raw_response` (line 177). -/
def analyze_logs (configured : Bool) (decode : String → Option JObj) (now : String)
    (logs : List LogEntry) (post : PostOutcome) : JObj × Nat :=
  if ¬ configured then
    ([("errors", JVal.jarr []), ("summary", JVal.jstr "Error: AI service not configured.")], 0)
  else if logs = [] then
    (noLogsResult, 0)
  else
    match post with
    | PostOutcome.exn m =>
      ([("errors", JVal.jarr []),
        ("summary", JVal.jstr ("Error during analysis: " ++ m))], 1)
    | PostOutcome.resp status ai_response =>
      if status ≠ 200 then
        ([("errors", JVal.jarr []),
          ("summary", JVal.jstr ("Error from AI service: " ++ toString status))], 1)
      else
        (pySet (parseAnalysis decode now ai_response) "_raw_response" (JVal.jstr ai_response), 1)

/-! ## Remediation client (`synapt_service.py`) -/

/-- The stored `solution_steps` column value: a text value, a native array
of strings, or SQL NULL (`synapt_service.py` lines 136-148). -/
inductive StepsVal where
  | vstr (s : String)
  | vlist (l : List String)
  | vnull
deriving DecidableEq, Repr

/-- Item loop of the string-array JSON decoder: `cur` accumulates the
characters of the current item in reverse.  Models Python `json.loads`
restricted to arrays of escape-free strings, the shape the solutions
table stores (per the spec's storage contract); any input outside that
fragment is treated as a decode failure.  All inputs appearing in the
theorems below stay inside the fragment. -/
def decodeItems : List Char → List Char → Option (List String)
  | '"' :: [']'], cur => some [String.mk cur.reverse]
  | '"' :: ',' :: '"' :: rest2, cur => (decodeItems rest2 []).map (String.mk cur.reverse :: ·)
  | '"' :: _, _ => none
  | '\\' :: _, _ => none
  | c :: rest, cur => decodeItems rest (c :: cur)
  | [], _ => none

/-- Python `json.loads` on a JSON-encoded array of escape-free strings
(see `decodeItems`); `none` models a raised `json.JSONDecodeError`. -/
def loadsList (s : String) : Option (List String) :=
  match s.data with
  | ['[', ']'] => some []
  | '[' :: '"' :: rest => decodeItems rest []
  | _ => none

/-- The `solution_steps` normalization of `SynaptService.find_solutions`
(lines 134-148): a truthiness check on the stored value, then the
JSON-string / newline-string / native-list branches. -/
def normalizeSteps (v : StepsVal) : List String :=
  match v with
  | StepsVal.vnull => []
  | StepsVal.vstr s =>
    if s = "" then []
    else if pyStartsWith s '[' then
      match loadsList s with
      | some l => l
      | none => [s]
    else ((pySplit s '\n').map pyStrip).filter (fun st => st ≠ "")
  | StepsVal.vlist l => if l = [] then [] else l

/-- Character-level body of the JSON encoding of a non-empty string array:
everything after the opening `["`. -/
def itemsTail : List String → List Char
  | [] => [']']
  | [s] => s.data ++ ['"', ']']
  | s :: rest => s.data ++ '"' :: ',' :: '"' :: itemsTail rest

/-- The JSON-array-string representation of a list of steps (the first of
the three storage shapes the spec names). -/
def encodeJsonArray (l : List String) : String :=
  match l with
  | [] => "[]"
  | _ :: _ => String.mk ('[' :: '"' :: itemsTail l)

/-- Character-level body of the newline-delimited representation. -/
def joinNL : List (List Char) → List Char
  | [] => []
  | [s] => s
  | s :: rest => s ++ '\n' :: joinNL rest

/-- The newline-delimited string representation of a list of steps (the
second of the three storage shapes the spec names). -/
def newlineJoin (l : List String) : String :=
  String.mk (joinNL (l.map String.data))

/-- One row of the `solutions` table as returned by the `RealDictCursor`
query of `find_solutions` (lines 112-131): the selected columns, with the
`solution` column nullable and `solution_confidence` aliased to
`confidence`.  `confidence` is modelled as a rational, exact for every
value the claims mention. -/
structure DBRow where
  id : Int
  error_message : String
  solution : Option String
  confidence : ℚ
  solution_steps : StepsVal
  severity : String
deriving DecidableEq

/-- Outcome of the per-error database query (lines 108-131): a best match,
no row, or a raised exception (caught at lines 166-173). -/
inductive LookupOutcome where
  | found (row : DBRow)
  | notFound
  | raised (exc : String)
deriving DecidableEq

/-- Values appearing in a recommendation dict. -/
inductive RVal where
  | rstr (s : String)
  | rnum (q : ℚ)
  | rlist (l : List String)
  | rint (n : Int)
  | rnull
deriving DecidableEq, Repr

/-- A recommendation dict, modelled as its field list so that the presence
or absence of a key (such as `id`) is observable. -/
abbrev Rec := List (String × RVal)

/-- The recommendation appended for a database match (lines 150-156);
`result.get('solution', ...)` returns the column value, `None` included,
since the key is always present in the selected row. -/
def matchedRec (msg : String) (row : DBRow) : Rec :=
  [("error", RVal.rstr msg),
   ("solution", match row.solution with
                | some s => RVal.rstr s
                | none => RVal.rnull),
   ("confidence", RVal.rnum row.confidence),
   ("steps", RVal.rlist (normalizeSteps row.solution_steps)),
   ("id", RVal.rint row.id)]

/-- The placeholder appended when no row matches (lines 158-164). -/
def noMatchRec (msg : String) : Rec :=
  [("error", RVal.rstr msg),
   ("solution", RVal.rstr "No solution found in the knowledge base."),
   ("confidence", RVal.rnum 0),
   ("steps", RVal.rlist [])]

/-- The placeholder appended when the per-error query raises
(lines 166-173). -/
def errorRec (msg exc : String) : Rec :=
  [("error", RVal.rstr msg),
   ("solution", RVal.rstr ("Error retrieving solution: " ++ exc)),
   ("confidence", RVal.rnum 0),
   ("steps", RVal.rlist [])]

/-- One detected error as consulted by `find_solutions`: only
`error.get('message', '')` is read (line 103), so the model keeps just
that resolved value. -/
structure DErr where
  message : String
deriving DecidableEq, Repr

/-- The recommendation built for one non-empty error message, by the
outcome of its query. -/
def recFor (lookup : String → LookupOutcome) (msg : String) : Rec :=
  match lookup msg with
  | LookupOutcome.found row => matchedRec msg row
  | LookupOutcome.notFound => noMatchRec msg
  | LookupOutcome.raised e => errorRec msg e

/-- The per-error loop of `find_solutions` (lines 102-173): skip empty
messages, append one recommendation per remaining error. -/
def buildRecs (lookup : String → LookupOutcome) : List DErr → List Rec
  | [] => []
  | e :: rest =>
    if e.message = "" then buildRecs lookup rest
    else recFor lookup e.message :: buildRecs lookup rest

/-- `r.get('confidence', 0)` as used in the summary count (line 178). -/
def getConfidence (r : Rec) : ℚ :=
  match pyLookup r "confidence" with
  | some (RVal.rnum q) => q
  | _ => 0

/-- The dict returned by `find_solutions`. -/
structure SolutionResponse where
  recommendations : List Rec
  summary : String
deriving DecidableEq

/-- `SynaptService.find_solutions` (lines 73-191).  `connAvailable` models
whether `get_connection()` returned a usable connection; `lookup` is the
oracle for the per-error `SELECT` round trip. -/
def find_solutions (connAvailable : Bool) (lookup : String → LookupOutcome)
    (errors : List DErr) : SolutionResponse :=
  if errors = [] then
    { recommendations := [], summary := "No errors to find solutions for." }
  else if ¬ connAvailable then
    { recommendations := [], summary := "Could not connect to solution database." }
  else
    let recs := buildRecs lookup errors
    { recommendations := recs
    , summary := "Found " ++ toString (recs.filter (fun r => getConfidence r > 0)).length
        ++ " solution(s) for " ++ toString recs.length ++ " identified errors." }

/-! ## Spec-side comparison definitions and concrete inputs -/

/-- Modelled from the spec's words, for comparison with the code: a line is
error-indicating when it contains "error" or "exception"
case-insensitively (spec section 4.2, decode-failure fallback). -/
def specErrorLine (line : String) : Bool :=
  pyIn "error" (lowerStr line) || pyIn "exception" (lowerStr line)

/-- Modelled from the spec's words, for comparison with the code: backfill
the decoded object with defaults only for MISSING top-level keys, with no
other change (spec section 8, parsing idempotence property). -/
def backfillMissing (a : JObj) : JObj :=
  let a1 :=
    if (pyLookup a "errors").isSome then a else pySet a "errors" (JVal.jarr [])
  if (pyLookup a1 "summary").isSome then a1
  else pySet a1 "summary" (JVal.jstr "Analysis completed without summary.")

/-- A decode oracle for inputs on which `json.loads` fails (or that contain
no brace-delimited substring at all). -/
def decodeNone : String → Option JObj := fun _ => none

/-- Concrete raw backend response: a brace-delimited well-formed JSON object
whose `errors` key holds a string, not a list. -/
def rawC5 : String := "\x7b\"errors\": \"x\"\x7d"

/-- Decode oracle agreeing with Python `json.loads` on `rawC5` (its only
consulted input): the object with the single key `errors` bound to the
string `"x"`. -/
def decodeC5 : String → Option JObj :=
  fun s => if s = rawC5 then some [("errors", JVal.jstr "x")] else none

/-- Concrete raw backend response for the fallback path: no braces, one line
containing "ERROR" and one line containing "exception" in lowercase. -/
def rawC2 : String := "ERROR: disk full\nexception raised"

/-- Concrete raw backend response containing exactly one well-formed JSON
object (a bare summary) between its first and last brace. -/
def rawC5w : String := "\x7b\"summary\": \"ok\"\x7d"

/-- Decode oracle agreeing with Python `json.loads` on `rawC5w` (its only
consulted input). -/
def decodeC5w : String → Option JObj :=
  fun s => if s = rawC5w then some [("summary", JVal.jstr "ok")] else none

/-- The step lists within the fragment on which the three storage
representations of `solution_steps` carry the same content unambiguously:
each step nonempty, already stripped, free of newlines and of the JSON
string metacharacters, and the first step not starting with `[` (else the
newline-delimited representation is routed into the JSON branch of the
code). -/
def GoodSteps (l : List String) : Prop :=
  (∀ s ∈ l, s ≠ "" ∧ pyStrip s = s ∧ ∀ c ∈ s.data, c ≠ '\n' ∧ c ≠ '"' ∧ c ≠ '\\') ∧
  (∀ s ∈ l.take 1, pyStartsWith s '[' = false)

instance : DecidablePred GoodSteps := fun _ => by
  unfold GoodSteps
  infer_instance

/-! ## Helper lemmas -/

theorem strMk_data (s : String) : String.mk s.data = s := by
  cases s
  rfl

theorem pyLookup_pySet_self {α : Type} (a : List (String × α)) (k : String) (v : α) :
    pyLookup (pySet a k v) k = some v := by
  induction a with
  | nil => simp [pySet, pyLookup]
  | cons kv t ih =>
    obtain ⟨k', v'⟩ := kv
    by_cases h : k' = k
    · simp [pySet, pyLookup, h]
    · simp [pySet, pyLookup, h, ih]

theorem pyLookup_pySet_other {α : Type} (a : List (String × α)) (k k' : String) (v : α)
    (h : k' ≠ k) : pyLookup (pySet a k v) k' = pyLookup a k' := by
  have hk : ¬ k = k' := fun h2 => h h2.symm
  induction a with
  | nil => simp [pySet, pyLookup, hk]
  | cons kv t ih =>
    obtain ⟨k0, v0⟩ := kv
    by_cases h0 : k0 = k
    · subst h0
      simp [pySet, pyLookup, hk]
    · by_cases h1 : k0 = k'
      · simp [pySet, pyLookup, h0, h1, h]
      · simp [pySet, pyLookup, h0, h1, ih]

/-! ## C3: form validation compares bare times of day, not combined datetimes -/

/-- C3 (code_bug evaluation): the submission handler's validation compares
only the time-of-day fields.  First input: the window from day 0, 23:00
(second 82800) to day 1, 01:00 (second 3600) has its combined end strictly
after its combined start, yet the handler rejects it with the time
validation error and never reaches the search stage.  Second input: the
window from day 5, 01:00 to day 4, 02:00 has its combined end strictly
before its combined start, yet validation passes and the search stage is
invoked. -/
theorem handleSubmit_time_only_comparison :
    (combinedBefore (0, 82800) (1, 3600) = true ∧
      handleSubmit ⟨"WO-1", "ingest", 0, 82800, 1, 3600⟩
        = SubmitOutcome.validationError "End time must be after start time") ∧
    (combinedBefore (4, 7200) (5, 3600) = true ∧
      handleSubmit ⟨"WO-1", "ingest", 5, 3600, 4, 7200⟩
        = SubmitOutcome.searchInvoked "WO-1" "ingest" (5, 3600) (4, 7200)) := by
  exact ⟨⟨by decide, by decide⟩, ⟨by decide, by decide⟩⟩

/-! ## C4: search failure is distinguished from zero matches -/

/-- C4: for a configured service, `retrieve_logs` returns the failure value
`none` (Python `None`) on a transport exception and on any non-200
response, returns the empty collection `some []` on a 200 response with
zero hits, and the two outcomes are distinct, so the caller can tell
failure apart from zero matches. -/
theorem retrieve_logs_failure_distinct_from_empty (m : String) (status : Nat)
    (hits : List (List (String × String))) (hst : status ≠ 200) :
    retrieve_logs true (ElkOutcome.exception m) = none ∧
    retrieve_logs true (ElkOutcome.response status hits) = none ∧
    retrieve_logs true (ElkOutcome.response 200 []) = some [] ∧
    retrieve_logs true (ElkOutcome.response 200 [])
      ≠ retrieve_logs true (ElkOutcome.exception m) := by
  refine ⟨rfl, ?_, rfl, ?_⟩
  · simp [retrieve_logs, hst]
  · intro h
    exact Option.noConfusion h

/-- Witness for C4 at a concrete non-200 status. -/
theorem retrieve_logs_failure_distinct_from_empty_witness :
    (503 ≠ 200) ∧
    (retrieve_logs true (ElkOutcome.exception "timeout") = none ∧
      retrieve_logs true (ElkOutcome.response 503 []) = none ∧
      retrieve_logs true (ElkOutcome.response 200 []) = some [] ∧
      retrieve_logs true (ElkOutcome.response 200 [])
        ≠ retrieve_logs true (ElkOutcome.exception "timeout")) :=
  ⟨by decide, retrieve_logs_failure_distinct_from_empty "timeout" 503 [] (by decide)⟩

/-! ## C9: `None` conflates not-configured with connectivity failure -/

/-- C9: `retrieve_logs` returns the same value `none` when the service is
not configured, when the round trip raises, and when the backend answers
with a non-200 status, so the return value alone cannot separate a
configuration error from a connectivity failure. -/
theorem retrieve_logs_none_conflation (o : ElkOutcome) (m : String) (status : Nat)
    (hits : List (List (String × String))) (hst : status ≠ 200) :
    retrieve_logs false o = none ∧
    retrieve_logs true (ElkOutcome.exception m) = none ∧
    retrieve_logs true (ElkOutcome.response status hits) = none ∧
    retrieve_logs false o = retrieve_logs true (ElkOutcome.exception m) ∧
    retrieve_logs false o = retrieve_logs true (ElkOutcome.response status hits) := by
  have h1 : retrieve_logs false o = none := by simp [retrieve_logs]
  have h2 : retrieve_logs true (ElkOutcome.exception m) = none := rfl
  have h3 : retrieve_logs true (ElkOutcome.response status hits) = none := by
    simp [retrieve_logs, hst]
  exact ⟨h1, h2, h3, h1.trans h2.symm, h1.trans h3.symm⟩

/-! ## Remediation lemmas and claims C1, C8, C10 -/

theorem buildRecs_eq (lookup : String → LookupOutcome) (errors : List DErr) :
    buildRecs lookup errors
      = (errors.filter (fun e => e.message ≠ "")).map (fun e => recFor lookup e.message) := by
  induction errors with
  | nil => rfl
  | cons e rest ih =>
    by_cases h : e.message = ""
    · simp [buildRecs, h, ih]
    · simp [buildRecs, h, ih]

theorem find_solutions_recs (lookup : String → LookupOutcome) (errors : List DErr) :
    (find_solutions true lookup errors).recommendations
      = (errors.filter (fun e => e.message ≠ "")).map (fun e => recFor lookup e.message) := by
  by_cases h : errors = []
  · subst h
    rfl
  · simp [find_solutions, h, buildRecs_eq]

/-- C1: with an available database connection, `find_solutions` produces
exactly one recommendation per input error with a non-empty message — in
input order, each the recommendation determined by that error's lookup
outcome (match, no match, or raised query exception) — and none for an
error whose message is empty. -/
theorem find_solutions_one_per_nonempty_message (lookup : String → LookupOutcome)
    (errors : List DErr) :
    (find_solutions true lookup errors).recommendations
      = (errors.filter (fun e => e.message ≠ "")).map (fun e => recFor lookup e.message) ∧
    (find_solutions true lookup errors).recommendations.length
      = (errors.filter (fun e => e.message ≠ "")).length := by
  refine ⟨find_solutions_recs lookup errors, ?_⟩
  rw [find_solutions_recs lookup errors, List.length_map]

/-- C8: when the per-error database query raises for some error in the
list, that error still receives exactly its placeholder recommendation —
whose `solution` field carries the exception text and whose confidence is
0 — and the remaining errors are all still processed (one recommendation
per non-empty-message error overall); `find_solutions` returns a plain
response, with no exception escaping. -/
theorem find_solutions_exception_placeholder (lookup : String → LookupOutcome)
    (errors : List DErr) (e : DErr) (t : String)
    (he : e ∈ errors) (hm : e.message ≠ "")
    (hr : lookup e.message = LookupOutcome.raised t) :
    errorRec e.message t ∈ (find_solutions true lookup errors).recommendations ∧
    pyLookup (errorRec e.message t) "solution"
      = some (RVal.rstr ("Error retrieving solution: " ++ t)) ∧
    pyLookup (errorRec e.message t) "confidence" = some (RVal.rnum 0) ∧
    (find_solutions true lookup errors).recommendations.length
      = (errors.filter (fun x => x.message ≠ "")).length := by
  refine ⟨?_, rfl, rfl, ?_⟩
  · rw [find_solutions_recs lookup errors]
    refine List.mem_map.2 ⟨e, List.mem_filter.2 ⟨he, by simpa using hm⟩, ?_⟩
    simp [recFor, hr]
  · rw [find_solutions_recs lookup errors, List.length_map]

/-- Witness for C8: a one-element error list whose lookup raises. -/
theorem find_solutions_exception_placeholder_witness :
    ((⟨"boom"⟩ : DErr) ∈ [(⟨"boom"⟩ : DErr)] ∧ (⟨"boom"⟩ : DErr).message ≠ "" ∧
      (fun _ => LookupOutcome.raised "db down") (DErr.message ⟨"boom"⟩)
        = LookupOutcome.raised "db down") ∧
    errorRec "boom" "db down"
      ∈ (find_solutions true (fun _ => LookupOutcome.raised "db down")
          [(⟨"boom"⟩ : DErr)]).recommendations :=
  ⟨⟨by decide, by decide, rfl⟩,
    (find_solutions_exception_placeholder (fun _ => LookupOutcome.raised "db down")
      [⟨"boom"⟩] ⟨"boom"⟩ "db down" (by decide) (by decide) rfl).1⟩

/-- C10: every recommendation emitted by `find_solutions` stems from an
input error with a non-empty message; when its lookup found a database
row, the recommendation carries an `id` field holding that row's id, and
when it is a placeholder (no match, or a raised query) it carries no `id`
field at all. -/
theorem find_solutions_id_field_presence (lookup : String → LookupOutcome)
    (errors : List DErr) (r : Rec)
    (hr : r ∈ (find_solutions true lookup errors).recommendations) :
    ∃ e, e ∈ errors ∧ e.message ≠ "" ∧
      ((∃ row, lookup e.message = LookupOutcome.found row ∧ r = matchedRec e.message row ∧
          pyLookup r "id" = some (RVal.rint row.id)) ∨
       (lookup e.message = LookupOutcome.notFound ∧ r = noMatchRec e.message ∧
          pyLookup r "id" = none) ∨
       (∃ t, lookup e.message = LookupOutcome.raised t ∧ r = errorRec e.message t ∧
          pyLookup r "id" = none)) := by
  rw [find_solutions_recs lookup errors] at hr
  obtain ⟨e, hef, hrec⟩ := List.mem_map.1 hr
  obtain ⟨hee, hem⟩ := List.mem_filter.1 hef
  refine ⟨e, hee, by simpa using hem, ?_⟩
  cases ho : lookup e.message with
  | found row =>
    refine Or.inl ⟨row, rfl, ?_, ?_⟩
    · rw [← hrec]
      simp [recFor, ho]
    · rw [← hrec]
      simp [recFor, ho]
      rfl
  | notFound =>
    refine Or.inr (Or.inl ⟨rfl, ?_, ?_⟩)
    · rw [← hrec]
      simp [recFor, ho]
    · rw [← hrec]
      simp [recFor, ho]
      rfl
  | raised t =>
    refine Or.inr (Or.inr ⟨t, rfl, ?_, ?_⟩)
    · rw [← hrec]
      simp [recFor, ho]
    · rw [← hrec]
      simp [recFor, ho]
      rfl

/-- Witness for C10: a two-element error list, one lookup matching a
concrete row and membership of the matched recommendation. -/
theorem find_solutions_id_field_presence_witness :
    (matchedRec "x" ⟨7, "x", some "fix", 9 / 10, StepsVal.vlist ["a"], "High"⟩
      ∈ (find_solutions true
          (fun _ => LookupOutcome.found ⟨7, "x", some "fix", 9 / 10, StepsVal.vlist ["a"], "High"⟩)
          [(⟨"x"⟩ : DErr)]).recommendations) ∧
    ∃ e, e ∈ [(⟨"x"⟩ : DErr)] ∧ e.message ≠ "" ∧
      ((∃ row, (fun _ => LookupOutcome.found
            (⟨7, "x", some "fix", 9 / 10, StepsVal.vlist ["a"], "High"⟩ : DBRow)) e.message
            = LookupOutcome.found row ∧
          matchedRec "x" ⟨7, "x", some "fix", 9 / 10, StepsVal.vlist ["a"], "High"⟩
            = matchedRec e.message row ∧
          pyLookup (matchedRec "x" ⟨7, "x", some "fix", 9 / 10, StepsVal.vlist ["a"], "High"⟩) "id"
            = some (RVal.rint row.id)) ∨
       ((fun _ => LookupOutcome.found
            (⟨7, "x", some "fix", 9 / 10, StepsVal.vlist ["a"], "High"⟩ : DBRow)) e.message
            = LookupOutcome.notFound ∧
          matchedRec "x" ⟨7, "x", some "fix", 9 / 10, StepsVal.vlist ["a"], "High"⟩
            = noMatchRec e.message ∧
          pyLookup (matchedRec "x" ⟨7, "x", some "fix", 9 / 10, StepsVal.vlist ["a"], "High"⟩) "id"
            = none) ∨
       (∃ t, (fun _ => LookupOutcome.found
            (⟨7, "x", some "fix", 9 / 10, StepsVal.vlist ["a"], "High"⟩ : DBRow)) e.message
            = LookupOutcome.raised t ∧
          matchedRec "x" ⟨7, "x", some "fix", 9 / 10, StepsVal.vlist ["a"], "High"⟩
            = errorRec e.message t ∧
          pyLookup (matchedRec "x" ⟨7, "x", some "fix", 9 / 10, StepsVal.vlist ["a"], "High"⟩) "id"
            = none)) :=
  ⟨by simp [find_solutions, buildRecs, recFor],
    find_solutions_id_field_presence
      (fun _ => LookupOutcome.found ⟨7, "x", some "fix", 9 / 10, StepsVal.vlist ["a"], "High"⟩)
      [⟨"x"⟩] (matchedRec "x" ⟨7, "x", some "fix", 9 / 10, StepsVal.vlist ["a"], "High"⟩)
      (by simp [find_solutions, buildRecs, recFor])⟩

/-- Witness for C9 at concrete values. -/
theorem retrieve_logs_none_conflation_witness :
    (503 ≠ 200) ∧
    (retrieve_logs false (ElkOutcome.response 200 [[("message", "ok")]]) = none ∧
      retrieve_logs true (ElkOutcome.exception "refused") = none ∧
      retrieve_logs true (ElkOutcome.response 503 []) = none ∧
      retrieve_logs false (ElkOutcome.response 200 [[("message", "ok")]])
        = retrieve_logs true (ElkOutcome.exception "refused") ∧
      retrieve_logs false (ElkOutcome.response 200 [[("message", "ok")]])
        = retrieve_logs true (ElkOutcome.response 503 [])) :=
  ⟨by decide,
    retrieve_logs_none_conflation (ElkOutcome.response 200 [[("message", "ok")]])
      "refused" 503 [] (by decide)⟩

/-! ## Analysis lemmas and claims C6, C2, C5 -/

theorem scanErrors_eq (now : String) (lines : List String) :
    scanErrors now lines = (lines.filter errorLine).map (mkFallbackError now) := by
  induction lines with
  | nil => rfl
  | cons line rest ih =>
    by_cases h : errorLine line
    · simp [scanErrors, h, ih]
    · simp [scanErrors, h, ih]

/-- C6 counterexample: for the empty log list but an unconfigured service,
`analyze_logs` returns the not-configured summary, not the value the claim
names (though still without a network call). -/
theorem analyze_logs_unconfigured_empty_cx :
    (analyze_logs false decodeNone "T" [] (PostOutcome.resp 200 "")).2 = 0 ∧
    pyLookup (analyze_logs false decodeNone "T" [] (PostOutcome.resp 200 "")).1 "summary"
      = some (JVal.jstr "Error: AI service not configured.") ∧
    (analyze_logs false decodeNone "T" [] (PostOutcome.resp 200 "")).1 ≠ noLogsResult := by
  refine ⟨rfl, rfl, ?_⟩
  intro h
  have h2 : some (JVal.jstr "Error: AI service not configured.")
      = some (JVal.jstr "No logs available to analyze.") := by
    calc some (JVal.jstr "Error: AI service not configured.")
        = pyLookup (analyze_logs false decodeNone "T" [] (PostOutcome.resp 200 "")).1
            "summary" := rfl
      _ = pyLookup noLogsResult "summary" := by rw [h]
      _ = some (JVal.jstr "No logs available to analyze.") := rfl
  have h3 := Option.some.inj h2
  injection h3 with h4
  exact absurd h4 (by decide)

/-- C6 amended: for a CONFIGURED service, `analyze_logs` on an empty log
list immediately returns the errors-empty / "No logs available to
analyze." result and issues zero network calls to the generative backend,
whatever the backend oracle would have answered. -/
theorem analyze_logs_empty_no_network_call (decode : String → Option JObj) (now : String)
    (post : PostOutcome) :
    analyze_logs true decode now [] post = (noLogsResult, 0) := rfl

/-- C2 counterexample: a brace-free raw response with one "ERROR" line and
one lowercase "exception" line.  The spec's case-insensitive predicate
matches both lines, but the code emits exactly one DetectedError (the
lowercase "exception" line fails all three of its substring tests), and
its root_cause is "Unknown - parsed from unstructured response", not
"Unknown". -/
theorem parseAnalysis_exception_line_cx :
    ((pySplit rawC2 '\n').filter specErrorLine).length = 2 ∧
    pyLookup (parseAnalysis decodeNone "T" rawC2) "errors"
      = some (JVal.jarr [JVal.jobj (mkFallbackError "T" "ERROR: disk full")]) ∧
    pyLookup (mkFallbackError "T" "ERROR: disk full") "root_cause"
      ≠ some (JVal.jstr "Unknown") := by
  refine ⟨by decide, rfl, ?_⟩
  intro h
  have h2 := Option.some.inj h
  injection h2 with h3
  exact absurd h3 (by decide)

/-- C2 amended: whenever the raw response has no brace-delimited substring,
or decoding that substring fails, the analysis result's `errors` value
holds one DetectedError for every line of the raw response that contains
"ERROR", "Exception" (both case-sensitively) or "error"
case-insensitively — i.e. every line satisfying `errorLine` — and for no
other line; each such DetectedError has the stripped line as its message,
root_cause "Unknown - parsed from unstructured response" and severity
"Unknown". -/
theorem parseAnalysis_fallback_error_lines (decode : String → Option JObj)
    (now raw : String)
    (h : (0 ≤ pyFind raw '\x7b' ∧ pyFind raw '\x7b' < pyRfind raw '\x7d' + 1) →
      decode (pySlice raw (pyFind raw '\x7b') (pyRfind raw '\x7d' + 1)) = none) :
    pyLookup (parseAnalysis decode now raw) "errors"
      = some (JVal.jarr
          (((pySplit raw '\n').filter errorLine).map
            (fun l => JVal.jobj (mkFallbackError now l)))) ∧
    (∀ l, pyLookup (mkFallbackError now l) "message" = some (JVal.jstr (pyStrip l)) ∧
      pyLookup (mkFallbackError now l) "root_cause"
        = some (JVal.jstr "Unknown - parsed from unstructured response") ∧
      pyLookup (mkFallbackError now l) "severity" = some (JVal.jstr "Unknown")) := by
  constructor
  · by_cases hc : 0 ≤ pyFind raw '\x7b' ∧ pyFind raw '\x7b' < pyRfind raw '\x7d' + 1
    · simp only [parseAnalysis, if_pos hc, h hc, fallbackAnalysis, scanErrors_eq,
        List.map_map, pyLookup]
      simp [Function.comp]
    · simp only [parseAnalysis, if_neg hc, fallbackAnalysis, scanErrors_eq,
        List.map_map, pyLookup]
      simp [Function.comp]
  · intro l
    exact ⟨rfl, rfl, rfl⟩

/-- Witness for C2 amended: a brace-free raw response. -/
theorem parseAnalysis_fallback_error_lines_witness :
    pyLookup (parseAnalysis decodeNone "T" "ERROR: disk full") "errors"
      = some (JVal.jarr
          ((((pySplit "ERROR: disk full" '\n').filter errorLine)).map
            (fun l => JVal.jobj (mkFallbackError "T" l)))) :=
  (parseAnalysis_fallback_error_lines decodeNone "T" "ERROR: disk full"
    (fun _ => rfl)).1

theorem validateAnalysis_other_key (a : JObj) (k : String)
    (h1 : k ≠ "errors") (h2 : k ≠ "summary") :
    pyLookup (validateAnalysis a) k = pyLookup a k := by
  have hP : ∀ b : JObj, pyLookup (pySet b "summary"
      (JVal.jstr "Analysis completed without summary.")) k = pyLookup b k :=
    fun b => pyLookup_pySet_other b "summary" k _ h2
  have hE : pyLookup (pySet a "errors" (JVal.jarr [])) k = pyLookup a k :=
    pyLookup_pySet_other a "errors" k _ h1
  simp only [validateAnalysis]
  cases he : pyLookup a "errors" with
  | none =>
    cases hs : pyLookup (pySet a "errors" (JVal.jarr [])) "summary" with
    | none => simp [hs, hP, hE]
    | some w => simp [hs, hE]
  | some v =>
    cases v with
    | jarr es =>
      cases hs : pyLookup a "summary" with
      | none => simp [hs, hP]
      | some w => simp [hs]
    | jnull =>
      cases hs : pyLookup (pySet a "errors" (JVal.jarr [])) "summary" with
      | none => simp [hs, hP, hE]
      | some w => simp [hs, hE]
    | jbool b =>
      cases hs : pyLookup (pySet a "errors" (JVal.jarr [])) "summary" with
      | none => simp [hs, hP, hE]
      | some w => simp [hs, hE]
    | jnum q =>
      cases hs : pyLookup (pySet a "errors" (JVal.jarr [])) "summary" with
      | none => simp [hs, hP, hE]
      | some w => simp [hs, hE]
    | jstr s =>
      cases hs : pyLookup (pySet a "errors" (JVal.jarr [])) "summary" with
      | none => simp [hs, hP, hE]
      | some w => simp [hs, hE]
    | jobj fs =>
      cases hs : pyLookup (pySet a "errors" (JVal.jarr [])) "summary" with
      | none => simp [hs, hP, hE]
      | some w => simp [hs, hE]

theorem validateAnalysis_errors_key (a : JObj) :
    pyLookup (validateAnalysis a) "errors"
      = (match pyLookup a "errors" with
         | some (JVal.jarr es) => some (JVal.jarr es)
         | _ => some (JVal.jarr [])) := by
  have hSelf : pyLookup (pySet a "errors" (JVal.jarr [])) "errors"
      = some (JVal.jarr []) := pyLookup_pySet_self a "errors" _
  have hP : ∀ b : JObj, pyLookup (pySet b "summary"
      (JVal.jstr "Analysis completed without summary.")) "errors" = pyLookup b "errors" :=
    fun b => pyLookup_pySet_other b "summary" "errors" _ (by decide)
  simp only [validateAnalysis]
  cases he : pyLookup a "errors" with
  | none =>
    cases hs : pyLookup (pySet a "errors" (JVal.jarr [])) "summary" with
    | none => simp [hs, hP, hSelf]
    | some w => simp [hs, hSelf]
  | some v =>
    cases v with
    | jarr es =>
      cases hs : pyLookup a "summary" with
      | none => simp [hs, hP, he]
      | some w => simp [hs, he]
    | jnull =>
      cases hs : pyLookup (pySet a "errors" (JVal.jarr [])) "summary" with
      | none => simp [hs, hP, hSelf]
      | some w => simp [hs, hSelf]
    | jbool b =>
      cases hs : pyLookup (pySet a "errors" (JVal.jarr [])) "summary" with
      | none => simp [hs, hP, hSelf]
      | some w => simp [hs, hSelf]
    | jnum q =>
      cases hs : pyLookup (pySet a "errors" (JVal.jarr [])) "summary" with
      | none => simp [hs, hP, hSelf]
      | some w => simp [hs, hSelf]
    | jstr s =>
      cases hs : pyLookup (pySet a "errors" (JVal.jarr [])) "summary" with
      | none => simp [hs, hP, hSelf]
      | some w => simp [hs, hSelf]
    | jobj fs =>
      cases hs : pyLookup (pySet a "errors" (JVal.jarr [])) "summary" with
      | none => simp [hs, hP, hSelf]
      | some w => simp [hs, hSelf]

theorem validateAnalysis_summary_key (a : JObj) :
    pyLookup (validateAnalysis a) "summary"
      = (match pyLookup a "summary" with
         | some v => some v
         | none => some (JVal.jstr "Analysis completed without summary.")) := by
  have hO : pyLookup (pySet a "errors" (JVal.jarr [])) "summary" = pyLookup a "summary" :=
    pyLookup_pySet_other a "errors" "summary" _ (by decide)
  simp only [validateAnalysis]
  cases he : pyLookup a "errors" with
  | none =>
    cases hs : pyLookup a "summary" with
    | none =>
      simp [hO, hs, pyLookup_pySet_self]
    | some w => simp [hO, hs]
  | some v =>
    cases v with
    | jarr es =>
      cases hs : pyLookup a "summary" with
      | none => simp [hs, pyLookup_pySet_self]
      | some w => simp [hs]
    | jnull =>
      cases hs : pyLookup a "summary" with
      | none => simp [hO, hs, pyLookup_pySet_self]
      | some w => simp [hO, hs]
    | jbool b =>
      cases hs : pyLookup a "summary" with
      | none => simp [hO, hs, pyLookup_pySet_self]
      | some w => simp [hO, hs]
    | jnum q =>
      cases hs : pyLookup a "summary" with
      | none => simp [hO, hs, pyLookup_pySet_self]
      | some w => simp [hO, hs]
    | jstr s =>
      cases hs : pyLookup a "summary" with
      | none => simp [hO, hs, pyLookup_pySet_self]
      | some w => simp [hO, hs]
    | jobj fs =>
      cases hs : pyLookup a "summary" with
      | none => simp [hO, hs, pyLookup_pySet_self]
      | some w => simp [hO, hs]

/-- C5 counterexample: the raw response is exactly the well-formed JSON
object with the single key `errors` bound to the STRING "x" (consistent
with `json.loads` there).  The claim's backfill-missing-keys-only reading
(`backfillMissing`, from the spec's words) keeps `errors = "x"`, but the
code replaces the present non-list value with the empty list, so the
parse result differs from the claimed one. -/
theorem parseAnalysis_nonlist_errors_cx :
    pyLookup (parseAnalysis decodeC5 "T" rawC5) "errors" = some (JVal.jarr []) ∧
    pyLookup (backfillMissing [("errors", JVal.jstr "x")]) "errors"
      = some (JVal.jstr "x") ∧
    parseAnalysis decodeC5 "T" rawC5 ≠ backfillMissing [("errors", JVal.jstr "x")] := by
  refine ⟨rfl, rfl, ?_⟩
  intro h
  have h2 : some (JVal.jarr []) = some (JVal.jstr "x") := by
    calc some (JVal.jarr [])
        = pyLookup (parseAnalysis decodeC5 "T" rawC5) "errors" := rfl
      _ = pyLookup (backfillMissing [("errors", JVal.jstr "x")]) "errors" := by rw [h]
      _ = some (JVal.jstr "x") := rfl
  exact JVal.noConfusion (Option.some.inj h2)

/-- C5 amended: when the raw response holds a brace-delimited substring
that decodes to the object `a`, the parse result is `a` with its `errors`
entry kept when it is present and a list but REPLACED by the empty list
when it is missing or not a list, its `summary` entry kept when present
and backfilled with the default string when missing, and every other key
left unchanged. -/
theorem parseAnalysis_decode_backfill (decode : String → Option JObj) (now raw : String)
    (a : JObj)
    (h1 : 0 ≤ pyFind raw '\x7b')
    (h2 : pyFind raw '\x7b' < pyRfind raw '\x7d' + 1)
    (h3 : decode (pySlice raw (pyFind raw '\x7b') (pyRfind raw '\x7d' + 1)) = some a) :
    parseAnalysis decode now raw = validateAnalysis a ∧
    (∀ k, k ≠ "errors" → k ≠ "summary" →
      pyLookup (validateAnalysis a) k = pyLookup a k) ∧
    pyLookup (validateAnalysis a) "errors"
      = (match pyLookup a "errors" with
         | some (JVal.jarr es) => some (JVal.jarr es)
         | _ => some (JVal.jarr [])) ∧
    pyLookup (validateAnalysis a) "summary"
      = (match pyLookup a "summary" with
         | some v => some v
         | none => some (JVal.jstr "Analysis completed without summary.")) := by
  refine ⟨?_, fun k hk1 hk2 => validateAnalysis_other_key a k hk1 hk2,
    validateAnalysis_errors_key a, validateAnalysis_summary_key a⟩
  simp only [parseAnalysis]
  rw [if_pos ⟨h1, h2⟩, h3]

/-- Witness for C5 amended: a concrete raw response that is exactly one
JSON object holding only a summary. -/
theorem parseAnalysis_decode_backfill_witness :
    (0 ≤ pyFind rawC5w '\x7b' ∧
      pyFind rawC5w '\x7b' < pyRfind rawC5w '\x7d' + 1 ∧
      decodeC5w (pySlice rawC5w (pyFind rawC5w '\x7b') (pyRfind rawC5w '\x7d' + 1))
        = some [("summary", JVal.jstr "ok")]) ∧
    parseAnalysis decodeC5w "T" rawC5w
      = validateAnalysis [("summary", JVal.jstr "ok")] :=
  ⟨⟨by decide, by decide, rfl⟩,
    (parseAnalysis_decode_backfill decodeC5w "T" rawC5w [("summary", JVal.jstr "ok")]
      (by decide) (by decide) rfl).1⟩

/-! ## Steps-normalization lemmas and claim C7 -/

theorem data_ne_nil (s : String) (h : s ≠ "") : s.data ≠ [] := by
  intro h2
  apply h
  rw [← strMk_data s, h2]

theorem map_id_of_eq {α : Type} (f : α → α) :
    ∀ (l : List α), (∀ x ∈ l, f x = x) → l.map f = l
  | [], _ => rfl
  | x :: xs, h => by
    rw [List.map_cons, h x (by simp),
      map_id_of_eq f xs (fun y hy => h y (by simp [hy]))]

theorem decodeItems_append (xs ys cur : List Char)
    (h : ∀ c ∈ xs, c ≠ '"' ∧ c ≠ '\\') :
    decodeItems (xs ++ ys) cur = decodeItems ys (xs.reverse ++ cur) := by
  induction xs generalizing cur with
  | nil => simp
  | cons c rest ih =>
    have hc := h c (List.mem_cons_self c rest)
    have hrest : ∀ x ∈ rest, x ≠ '"' ∧ x ≠ '\\' :=
      fun x hx => h x (List.mem_cons_of_mem c hx)
    rw [List.cons_append]
    rw [show decodeItems (c :: (rest ++ ys)) cur = decodeItems (rest ++ ys) (c :: cur) from by
      rw [decodeItems] <;> simp [hc.1, hc.2]]
    rw [ih (c :: cur) hrest, List.reverse_cons, List.append_assoc]
    rfl

theorem decodeItems_itemsTail (s : String) (rest : List String)
    (h : ∀ t ∈ s :: rest, ∀ c ∈ t.data, c ≠ '"' ∧ c ≠ '\\') :
    decodeItems (itemsTail (s :: rest)) [] = some (s :: rest) := by
  induction rest generalizing s with
  | nil =>
    have hs := h s (by simp)
    show decodeItems (s.data ++ ['"', ']']) [] = some [s]
    rw [decodeItems_append s.data ['"', ']'] [] hs]
    simp [decodeItems, strMk_data]
  | cons s2 rest2 ih =>
    have hs := h s (by simp)
    show decodeItems (s.data ++ '"' :: ',' :: '"' :: itemsTail (s2 :: rest2)) []
      = some (s :: s2 :: rest2)
    rw [decodeItems_append s.data _ [] hs]
    rw [show decodeItems ('"' :: ',' :: '"' :: itemsTail (s2 :: rest2)) (s.data.reverse ++ [])
        = (decodeItems (itemsTail (s2 :: rest2)) []).map
            (String.mk ((s.data.reverse ++ []).reverse) :: ·) from by
      simp [decodeItems]]
    rw [ih s2 (fun t ht => h t (List.mem_cons_of_mem s ht))]
    simp [strMk_data]

theorem loadsList_encode (l : List String)
    (h : ∀ t ∈ l, ∀ c ∈ t.data, c ≠ '"' ∧ c ≠ '\\') :
    loadsList (encodeJsonArray l) = some l := by
  cases l with
  | nil => rfl
  | cons s rest =>
    show loadsList (String.mk ('[' :: '"' :: itemsTail (s :: rest))) = some (s :: rest)
    rw [show loadsList (String.mk ('[' :: '"' :: itemsTail (s :: rest)))
        = decodeItems (itemsTail (s :: rest)) [] from by simp [loadsList]]
    exact decodeItems_itemsTail s rest h

theorem splitCharAux_no_sep (c : Char) (s : List Char) (h : ∀ x ∈ s, x ≠ c) :
    splitCharAux c s = [s] := by
  induction s with
  | nil => rfl
  | cons x xs ih =>
    have hx := h x (by simp)
    have hxs : ∀ y ∈ xs, y ≠ c := fun y hy => h y (by simp [hy])
    simp [splitCharAux, hx, ih hxs]

theorem splitCharAux_append (c : Char) (s ys : List Char) (h : ∀ x ∈ s, x ≠ c) :
    splitCharAux c (s ++ c :: ys) = s :: splitCharAux c ys := by
  induction s with
  | nil => simp [splitCharAux]
  | cons x xs ih =>
    have hx := h x (by simp)
    have hxs : ∀ y ∈ xs, y ≠ c := fun y hy => h y (by simp [hy])
    simp [splitCharAux, hx, ih hxs]

theorem splitJoinNL : ∀ (l : List (List Char)), l ≠ [] →
    (∀ s ∈ l, ∀ x ∈ s, x ≠ '\n') → splitCharAux '\n' (joinNL l) = l
  | [], hl, _ => absurd rfl hl
  | [s], _, h => splitCharAux_no_sep '\n' s (h s (by simp))
  | s :: s2 :: rest2, _, h => by
    show splitCharAux '\n' (s ++ '\n' :: joinNL (s2 :: rest2)) = s :: s2 :: rest2
    rw [splitCharAux_append '\n' s (joinNL (s2 :: rest2)) (h s (by simp))]
    rw [splitJoinNL (s2 :: rest2) (by simp) (fun t ht => h t (by simp [ht]))]

theorem joinNL_cons_head (x : List Char) (xs : List (List Char)) :
    ∃ t, joinNL (x :: xs) = x ++ t := by
  cases xs with
  | nil => exact ⟨[], by simp [joinNL]⟩
  | cons y ys => exact ⟨'\n' :: joinNL (y :: ys), rfl⟩

/-- C7 counterexample: the newline-delimited and native representations of
the steps [" a", "b"] (equal content, one step carrying a leading space)
normalize differently — the newline branch strips each step, the native
branch does not.  The JSON-array string of the same content keeps the
space, agreeing with the native branch.  A first step starting with `[`
breaks the newline representation entirely: it is routed into the JSON
branch, fails to decode, and collapses into a single step. -/
theorem normalizeSteps_representation_cx :
    newlineJoin [" a", "b"] = " a\nb" ∧
    normalizeSteps (StepsVal.vstr (newlineJoin [" a", "b"])) = ["a", "b"] ∧
    normalizeSteps (StepsVal.vstr (encodeJsonArray [" a", "b"])) = [" a", "b"] ∧
    normalizeSteps (StepsVal.vlist [" a", "b"]) = [" a", "b"] ∧
    normalizeSteps (StepsVal.vstr (newlineJoin [" a", "b"]))
      ≠ normalizeSteps (StepsVal.vlist [" a", "b"]) ∧
    normalizeSteps (StepsVal.vstr (newlineJoin ["[1] restart", "check logs"]))
      = ["[1] restart\ncheck logs"] ∧
    normalizeSteps (StepsVal.vlist ["[1] restart", "check logs"])
      = ["[1] restart", "check logs"] :=
  ⟨rfl, by decide, by decide, by decide, by decide, by decide, by decide⟩

/-- C7 amended: on step lists inside the unambiguous fragment (each step
nonempty, already stripped, free of newlines, double quotes and
backslashes, and the first step not starting with `[`), the JSON-array
string, the newline-delimited string and the native sequence all
normalize to the same ordered sequence of steps — the content itself. -/
theorem normalizeSteps_agreement (l : List String) (hg : GoodSteps l) :
    normalizeSteps (StepsVal.vstr (encodeJsonArray l)) = l ∧
    normalizeSteps (StepsVal.vstr (newlineJoin l)) = l ∧
    normalizeSteps (StepsVal.vlist l) = l := by
  obtain ⟨hall, hhead⟩ := hg
  cases l with
  | nil => exact ⟨rfl, rfl, rfl⟩
  | cons s rest =>
    have hmeta : ∀ t ∈ s :: rest, ∀ c ∈ t.data, c ≠ '"' ∧ c ≠ '\\' :=
      fun t ht c hc => ⟨((hall t ht).2.2 c hc).2.1, ((hall t ht).2.2 c hc).2.2⟩
    refine ⟨?_, ?_, by simp [normalizeSteps]⟩
    · have hload : loadsList (encodeJsonArray (s :: rest)) = some (s :: rest) :=
        loadsList_encode (s :: rest) hmeta
      have hne : encodeJsonArray (s :: rest) ≠ "" := by
        intro h2
        have h3 := congrArg String.data h2
        exact List.noConfusion
          (show ('[' :: '"' :: itemsTail (s :: rest) : List Char) = [] from h3)
      have hsw : pyStartsWith (encodeJsonArray (s :: rest)) '[' = true := rfl
      simp [normalizeSteps, hne, hsw, hload]
    · have hsne : s ≠ "" := (hall s (by simp)).1
      have hnonl : ∀ t ∈ (s :: rest).map String.data, ∀ x ∈ t, x ≠ '\n' := by
        intro t ht x hx
        obtain ⟨u, hu, hud⟩ := List.mem_map.1 ht
        exact ((hall u hu).2.2 x (hud ▸ hx)).1
      have hsplit : splitCharAux '\n' (joinNL ((s :: rest).map String.data))
          = (s :: rest).map String.data :=
        splitJoinNL _ (by simp) hnonl
      have hdata : (newlineJoin (s :: rest)).data
          = joinNL ((s :: rest).map String.data) := rfl
      obtain ⟨c, cs, hcs⟩ : ∃ c cs, s.data = c :: cs := by
        cases hd : s.data with
        | nil => exact absurd hd (data_ne_nil s hsne)
        | cons c cs => exact ⟨c, cs, rfl⟩
      obtain ⟨t0, ht0⟩ := joinNL_cons_head s.data (rest.map String.data)
      have hjdata : joinNL ((s :: rest).map String.data) = s.data ++ t0 := by
        simpa using ht0
      have hne : newlineJoin (s :: rest) ≠ "" := by
        intro h2
        have h3 := congrArg String.data h2
        rw [hdata, hjdata, hcs] at h3
        exact List.noConfusion h3
      have hc : c ≠ '[' := by
        have hh := hhead s (by simp)
        unfold pyStartsWith at hh
        rw [hcs] at hh
        intro hceq
        simp [hceq] at hh
      have hsw : pyStartsWith (newlineJoin (s :: rest)) '[' = false := by
        unfold pyStartsWith
        rw [hdata, hjdata, hcs, List.cons_append]
        simp [hc]
      have hps : pySplit (newlineJoin (s :: rest)) '\n' = s :: rest := by
        unfold pySplit
        rw [hdata, hsplit, List.map_map]
        exact map_id_of_eq _ _ (fun x _ => strMk_data x)
      have hms : (s :: rest).map pyStrip = s :: rest :=
        map_id_of_eq pyStrip (s :: rest) (fun x hx => (hall x hx).2.1)
      have hfil : (s :: rest).filter (fun st => st ≠ "") = s :: rest :=
        List.filter_eq_self.mpr (fun a ha => by simpa using (hall a ha).1)
      rw [show normalizeSteps (StepsVal.vstr (newlineJoin (s :: rest)))
          = ((pySplit (newlineJoin (s :: rest)) '\n').map pyStrip).filter
              (fun st => st ≠ "") from by
        simp [normalizeSteps, hne, hsw]]
      rw [hps, hms, hfil]

/-- Witness for C7 amended at a concrete good step list. -/
theorem normalizeSteps_agreement_witness :
    GoodSteps ["restart the service", "check the logs"] ∧
    (normalizeSteps (StepsVal.vstr (encodeJsonArray ["restart the service", "check the logs"]))
        = ["restart the service", "check the logs"] ∧
      normalizeSteps (StepsVal.vstr (newlineJoin ["restart the service", "check the logs"]))
        = ["restart the service", "check the logs"] ∧
      normalizeSteps (StepsVal.vlist ["restart the service", "check the logs"])
        = ["restart the service", "check the logs"]) :=
  ⟨by decide, normalizeSteps_agreement ["restart the service", "check the logs"] (by decide)⟩
